import Mathlib

/-!
Verification development for the `latticeconstructor` package
(`latticeconstructor/core.py` and `latticeconstructor/parse.py`).

The Python code is shallowly embedded: the builder object
`LatticeBuilderLine` becomes the structure `BState`, Python dicts become
ordered association lists with Python's `dict` update semantics, pandas
columns become Lean lists, `None`/`NaN` entries become `Option.none`, and
floats become exact rationals.  A method that can raise returns an
`OpResult` carrying an optional Python-level error besides the state the
object is left in when the exception propagates.
-/

set_option autoImplicit false

namespace LatticeConstructor

/-- A Python attribute value: number, string or boolean. -/
inductive AttrVal where
  | num (q : Rat)
  | str (s : String)
  | boolean (b : Bool)
deriving DecidableEq

/-- A Python error class raised by an operation of the builder. -/
inductive PyErr where
  /-- `assert` failure (missing `L`, bad `ftype`). -/
  | assertionError
  /-- `list.index` on an absent element, or tuple-unpacking arity mismatch. -/
  | valueError
  /-- `list(...)[0]` on an empty list. -/
  | indexError
  /-- `ntable["L"]` on a frame with no `L` column. -/
  | keyError
  /-- a parse failure propagated from the external `latticejson` parser. -/
  | parseError
deriving DecidableEq

/-- One element definition: the attribute dict stored under an element name
in `LatticeBuilderLine.definitions`.  `family` and `L` are the attributes
the core reads; `L = none` models a missing or null `L` key; `name` is the
`name` attribute (`none` when the key is absent); `others` collects the
remaining attributes. -/
structure AttrSet where
  family : String
  L : Option Rat
  name : Option String
  others : List (String × AttrVal)
deriving DecidableEq, Inhabited

/-- An ordered string-keyed map modelling a Python `dict`. -/
abbrev Dict (α : Type) := List (String × α)

/-- `d[k]` lookup (first binding; a well-formed dict has unique keys). -/
def Dict.get? {α : Type} : Dict α → String → Option α
  | [], _ => none
  | (k', v) :: rest, k => if k' = k then some v else Dict.get? rest k

/-- `d[k] = v`: replace the value in place when the key exists, append the
binding otherwise — Python `dict` update semantics. -/
def Dict.insert {α : Type} : Dict α → String → α → Dict α
  | [], k, v => [(k, v)]
  | (k', v') :: rest, k, v =>
      if k' = k then (k', v) :: rest else (k', v') :: Dict.insert rest k v

/-- `{**old, **new}`: old bindings updated from `new`, new-only keys
appended in the order of `new`. -/
def Dict.merge {α : Type} (old new : Dict α) : Dict α :=
  new.foldl (fun acc p => Dict.insert acc p.1 p.2) old

/-- Map over the values of a dict, keeping keys and order. -/
def Dict.mapVal {α : Type} (f : α → α) (d : Dict α) : Dict α :=
  d.map (fun p => (p.1, f p.2))

/-- The class-level `_CONVERSION_DICT` of `LatticeBuilderLine`. -/
def conversionDict : Dict String :=
  [("KQUAD", "QUADRUPOLE"),
   ("KSEXT", "SEXTUPOLE"),
   ("DRIF", "DRIFT"),
   ("RFCA", "RFCAVITY"),
   ("CSBEND", "SBEND"),
   ("MONI", "MONITOR"),
   ("WATCH", "MARKER"),
   ("EVKICK", "VKICKER"),
   ("EHKICK", "HKICKER"),
   ("MARK", "MARKER")]

/-- `self._CONVERSION_DICT.get(family, family)`. -/
def convFamily (f : String) : String :=
  (Dict.get? conversionDict f).getD f

/-- One row of the derived lattice table: the slot's definition attributes
merged with `name := slot name`, plus the `L` column (after any null
coercion) and the computed or assigned `at` column. -/
structure Row where
  name : String
  family : String
  L : Option Rat
  others : List (String × AttrVal)
  atv : Option Rat
deriving DecidableEq, Inhabited

/-- A pre-`at` row, as built by the `temp` comprehension in
`_update_table`. -/
structure PreRow where
  name : String
  family : String
  L : Option Rat
  others : List (String × AttrVal)
deriving DecidableEq, Inhabited

/-- The state of a `LatticeBuilderLine` instance.  The history `LifoQueue`
becomes a list whose head is the most recent snapshot. -/
structure BState where
  lattice : List String
  definitions : Dict AttrSet
  table : Option (List Row)
  positions : Option (List Rat)
  history : List (Dict AttrSet × List String × Option (List Row))
deriving DecidableEq, Inhabited

/-- The state made by `LatticeBuilderLine.__init__`. -/
def initState : BState :=
  { lattice := [], definitions := [], table := none, positions := none,
    history := [] }

/-- Push a deep copy of `(definitions, lattice, table)` onto the history —
the `self.history.put((deepcopy(...), ...))` prologue of every mutating
method. -/
def snapshot (s : BState) : BState :=
  { s with history := (s.definitions, s.lattice, s.table) :: s.history }

/-- Result of a builder method: `err = some e` when the Python call raises
`e`, together with the state the object holds afterwards. -/
structure OpResult where
  err : Option PyErr
  state : BState
deriving DecidableEq

/-- `ntable["L"].cumsum() - ntable["L"]/2`, row by row, over an all-present
`L` column: each entry is the running inclusive sum minus half the current
entry. -/
def atsFrom (acc : Rat) : List Rat → List Rat
  | [] => []
  | l :: rest => (acc + l - l / 2) :: atsFrom (acc + l) rest

/-- The `at` column computed from an all-present `L` column. -/
def ats (ls : List Rat) : List Rat := atsFrom 0 ls

/-- `ntable["L"].cumsum() - ntable["L"]/2` over an `L` column that may hold
nulls: pandas' `cumsum` skips NaN entries (the running sum continues past
them) and leaves NaN at their positions, and `NaN/2 = NaN`. -/
def atsOptFrom (acc : Rat) : List (Option Rat) → List (Option Rat)
  | [] => []
  | none :: rest => none :: atsOptFrom acc rest
  | some l :: rest => some (acc + l - l / 2) :: atsOptFrom (acc + l) rest

/-- The `at` column computed from an `L` column with possible nulls. -/
def atsOpt (ls : List (Option Rat)) : List (Option Rat) := atsOptFrom 0 ls

/-- Zip the pre-rows with the final `L` and `at` columns into table rows. -/
def mkRows (temp : List PreRow) (ls ats : List (Option Rat)) : List Row :=
  (temp.zip (ls.zip ats)).map
    (fun p => { name := p.1.name, family := p.1.family, L := p.2.1,
                others := p.1.others, atv := p.2.2 })

/-- The `temp` list comprehension of `_update_table`: one pre-row per
lattice slot, the slot's definition attributes with `name` overwritten by
the slot name. -/
def tempRows (s : BState) : List PreRow :=
  s.lattice.map (fun k =>
    let a := (Dict.get? s.definitions k).getD default
    { name := k, family := a.family, L := a.L, others := a.others })

/-- The raw `L` column of the fresh table (`ntable["L"]`). -/
def rawL (s : BState) : List (Option Rat) := (tempRows s).map PreRow.L

/-- The `at` column first assigned by `_update_table`: the explicit
positions when `self.positions is not None` (pandas aligns by row index,
missing entries become NaN), else the cumulative-sum computation. -/
def atInit (s : BState) : List (Option Rat) :=
  match s.positions with
  | some pos => (List.range (tempRows s).length).map (fun i => pos.get? i)
  | none => atsOpt (rawL s)

/-- `ntable["L"].isnull().values.any()`: the null-coercion guard. -/
def hasNullL (s : BState) : Bool := (rawL s).any Option.isNone

/-- The final `L` column: nulls coerced to `0.0` when any are present. -/
def finalL (s : BState) : List (Option Rat) :=
  if hasNullL s then (rawL s).map (fun l => some (l.getD 0)) else rawL s

/-- The final `at` column: recomputed over the coerced lengths when any
`L` was null, else the first assignment. -/
def finalAt (s : BState) : List (Option Rat) :=
  if hasNullL s then (ats ((rawL s).map (fun l => l.getD 0))).map some
  else atInit s

/-- `LatticeBuilderLine._update_table`.  Returns the new state, the set of
undefined references the method prints when the rebuild is skipped
(`set(self.lattice) - self.definitions.keys()`), and the error the method
raises, if any.

`pd.DataFrame(temp)` only has an `L` column when at least one row dict
carries an `L` key.  When none does — the lattice is empty, or every
referenced definition lacks a length — `ntable["L"]` at core.py line 282
(or `ntable["L"].isnull()` at line 284, after the positions assignment)
raises `KeyError`, and `self.table` is never assigned. -/
def update_table (s : BState) : BState × Option (Finset String) × Option PyErr :=
  if s.lattice.all (fun k => (Dict.get? s.definitions k).isSome) then
    if (rawL s).all Option.isNone then
      (s, none, some .keyError)
    else
      ({ s with table := some (mkRows (tempRows s) (finalL s) (finalAt s)) }, none, none)
  else
    (s, some (s.lattice.toFinset \ (s.definitions.map Prod.fst).toFinset), none)

/-- The `L` column after the null coercion, as plain rationals: each slot's
definition length with a missing length read as `0`. -/
def defLens (s : BState) : List Rat := (rawL s).map (fun l => l.getD 0)

/-- A `Union[str, List[str]]` argument; a bare string is normalized to a
one-element list by the `if not isinstance(..., list)` prologue. -/
inductive Arg where
  | one (s : String)
  | many (l : List String)
deriving DecidableEq

/-- The normalization `if not isinstance(x, list): x = [x]`. -/
def Arg.toList : Arg → List String
  | .one s => [s]
  | .many l => l

/-- `_def[k]["name"] = v.get("name", k)`: default an entry's `name`
attribute to its dict key. -/
def nameFill (key : String) (a : AttrSet) : AttrSet :=
  { a with name := some (a.name.getD key) }

/-- Rewrite one stored definition's family through the conversion dict. -/
def famNorm (a : AttrSet) : AttrSet := { a with family := convFamily a.family }

/-- `LatticeBuilderLine.add_def`.  The batch is the ordered entries of the
`_def` dict (keys unique in Python).  Snapshot first; then
`assert list(_def.values())[0].get("L", None) is not None` (IndexError on
an empty dict, AssertionError on a missing or null `L`); then default each
entry's `name` to its key, merge into `definitions`, rewrite every stored
family through the conversion dict, and rebuild the table when one
exists. -/
def add_def (s : BState) (batch : Dict AttrSet) : OpResult :=
  let s1 := snapshot s
  match batch.head? with
  | none => { err := some .indexError, state := s1 }
  | some (_, a0) =>
    if a0.L.isNone then { err := some .assertionError, state := s1 }
    else
      let batch' := batch.map (fun p => (p.1, nameFill p.1 p.2))
      let defs2 := Dict.mapVal famNorm (Dict.merge s1.definitions batch')
      let s2 := { s1 with definitions := defs2 }
      if s2.table.isSome then { err := (update_table s2).2.2, state := (update_table s2).1 }
      else { err := none, state := s2 }

/-- `LatticeBuilderLine.add_element`: append to the end of the lattice and
rebuild. -/
def add_element (s : BState) (element : Arg) : OpResult :=
  let s1 := snapshot s
  let s2 := { s1 with lattice := s1.lattice ++ element.toList }
  { err := (update_table s2).2.2, state := (update_table s2).1 }

/-- Python's `list.index`: the index of the first occurrence, `none` where
Python raises `ValueError`. -/
def pyIndex (old : String) : List String → Option Nat
  | [] => none
  | x :: rest => if x = old then some 0 else (pyIndex old rest).map (· + 1)

/-- `LatticeBuilderLine.replace_element`.  With `idx` given, splice by
position; otherwise look `old` up with `list.index` (ValueError when
absent, propagating after the snapshot was pushed). -/
def replace_element (s : BState) (old : String) (new : Arg)
    (idx : Option Nat) : OpResult :=
  let s1 := snapshot s
  let newL := new.toList
  match idx with
  | some i =>
    let s2 := { s1 with lattice := s1.lattice.take i ++ newL ++ s1.lattice.drop (i + 1) }
    { err := (update_table s2).2.2, state := (update_table s2).1 }
  | none =>
    match pyIndex old s1.lattice with
    | none => { err := some .valueError, state := s1 }
    | some i =>
      let s2 := { s1 with lattice := s1.lattice.take i ++ newL ++ s1.lattice.drop (i + 1) }
      { err := (update_table s2).2.2, state := (update_table s2).1 }

/-- `LatticeBuilderLine.replace_list`: replace the inclusive slot range
`[start_idx, end_idx]` by the new sequence. -/
def replace_list (s : BState) (start_idx end_idx : Nat) (new : Arg) : OpResult :=
  let s1 := snapshot s
  let lat := s1.lattice.take start_idx ++ new.toList ++ s1.lattice.drop (end_idx + 1)
  { err := (update_table { s1 with lattice := lat }).2.2,
    state := (update_table { s1 with lattice := lat }).1 }

/-- `LatticeBuilderLine.insert_element_before`. -/
def insert_element_before (s : BState) (element : Arg) (idx_next : Nat) : OpResult :=
  let s1 := snapshot s
  let lat := s1.lattice.take idx_next ++ element.toList ++ s1.lattice.drop idx_next
  { err := (update_table { s1 with lattice := lat }).2.2,
    state := (update_table { s1 with lattice := lat }).1 }

/-- `LatticeBuilderLine.insert_element_after`. -/
def insert_element_after (s : BState) (element : Arg) (idx_prev : Nat) : OpResult :=
  let s1 := snapshot s
  let lat := s1.lattice.take (idx_prev + 1) ++ element.toList ++ s1.lattice.drop (idx_prev + 1)
  { err := (update_table { s1 with lattice := lat }).2.2,
    state := (update_table { s1 with lattice := lat }).1 }

/-- `LatticeBuilderLine.remove_element`. -/
def remove_element (s : BState) (elem_idx : Nat) : OpResult :=
  let s1 := snapshot s
  let lat := s1.lattice.take elem_idx ++ s1.lattice.drop (elem_idx + 1)
  { err := (update_table { s1 with lattice := lat }).2.2,
    state := (update_table { s1 with lattice := lat }).1 }

/-- `LatticeBuilderLine.remove_from_to`: delete the inclusive range. -/
def remove_from_to (s : BState) (start_idx end_idx : Nat) : OpResult :=
  let s1 := snapshot s
  let lat := s1.lattice.take start_idx ++ s1.lattice.drop (end_idx + 1)
  { err := (update_table { s1 with lattice := lat }).2.2,
    state := (update_table { s1 with lattice := lat }).1 }

/-- `LatticeBuilderLine.get_idx`: all slot indices holding `elem`; pure
query, no snapshot, no rebuild. -/
def get_idx (s : BState) (elem : String) : List Nat :=
  (List.range s.lattice.length).filter (fun i => s.lattice.getD i "" = elem)

/-- `LatticeBuilderLine.build_table`: snapshot, then `_update_table`. -/
def build_table (s : BState) : OpResult :=
  let s1 := snapshot s
  { err := (update_table s1).2.2, state := (update_table s1).1 }

/-- The value `parse_from_string` returns when it accepts the text: the
3-tuple `(lattice_name, definitions, lattice)` (`parse.py`, line 110). -/
abbrev ParseOut := Option String × Dict AttrSet × List String

/-- `LatticeBuilderLine.load_from_file`.  The file's text and the external
parser are modelled by `parsed`: `none` when `parse_from_string` raises,
`some` the 3-tuple it returns.  Snapshot first; then
`assert ftype in ["lte", "madx"]` — before any file read; then the file is
read and parsed; then line 319 unpacks the 3-tuple into the four targets
`name, pos, defs, lat`, which raises `ValueError` ("not enough values to
unpack") before any of the assignments to `self` run. -/
def load_from_file (s : BState) (ftype : String) (parsed : Option ParseOut) : OpResult :=
  let s1 := snapshot s
  if ftype = "lte" ∨ ftype = "madx" then
    match parsed with
    | none => { err := some .parseError, state := s1 }
    | some _ => { err := some .valueError, state := s1 }
  else
    { err := some .assertionError, state := s1 }

/-- `LatticeBuilderLine.undo`: when the history is non-empty, pop the most
recent snapshot and restore `(definitions, lattice, table)` verbatim (no
recomputation); otherwise print and no-op. -/
def undo (s : BState) : BState :=
  if s.history.isEmpty then s
  else
    { s with definitions := (s.history.headD default).1,
             lattice := (s.history.headD default).2.1,
             table := (s.history.headD default).2.2,
             history := s.history.tail }

/-- One supported mutating operation, with its arguments.  `loadFromFile`
carries the parse outcome since file contents and the parser are external
collaborators. -/
inductive Op where
  | addDef (batch : Dict AttrSet)
  | addElement (e : Arg)
  | replaceElement (old : String) (new : Arg) (idx : Option Nat)
  | replaceList (start_idx end_idx : Nat) (new : Arg)
  | insertBefore (e : Arg) (idx : Nat)
  | insertAfter (e : Arg) (idx : Nat)
  | removeElement (idx : Nat)
  | removeFromTo (start_idx end_idx : Nat)
  | buildTable
  | loadFromFile (ftype : String) (parsed : Option ParseOut)

/-- The state a mutating operation leaves the builder in (also when the
call raises: the Python object keeps the mutations made before the
raise). -/
def Op.apply (s : BState) : Op → BState
  | .addDef batch => (add_def s batch).state
  | .addElement e => (add_element s e).state
  | .replaceElement old new idx => (replace_element s old new idx).state
  | .replaceList i j new => (replace_list s i j new).state
  | .insertBefore e i => (insert_element_before s e i).state
  | .insertAfter e i => (insert_element_after s e i).state
  | .removeElement i => (remove_element s i).state
  | .removeFromTo i j => (remove_from_to s i j).state
  | .buildTable => (build_table s).state
  | .loadFromFile ftype parsed => (load_from_file s ftype parsed).state

/-- Apply a sequence of operations left to right. -/
def applyOps (s : BState) (ops : List Op) : BState :=
  ops.foldl Op.apply s

/-! ### Concrete states used to instantiate the theorems -/

/-- A quadrupole-and-drift definition store: `Q` has family `KQUAD` and
length `1/2`, `D` has family `DRIF` and length `3`. -/
def exDefs : Dict AttrSet :=
  [("Q", { family := "QUADRUPOLE", L := some (1/2), name := some "Q", others := [] }),
   ("D", { family := "DRIFT", L := some 3, name := some "D", others := [] })]

/-- A fully-defined two-element builder state. -/
def exState : BState :=
  { lattice := ["Q", "D"], definitions := exDefs, table := none,
    positions := none, history := [] }

/-- A builder state whose lattice references the undefined name `X`. -/
def exUndefState : BState :=
  { lattice := ["Q", "X"], definitions := exDefs, table := none,
    positions := none, history := [] }

/-- A marker definition with no length, next to a drift with length `4`. -/
def exNullDefs : Dict AttrSet :=
  [("M", { family := "MARKER", L := none, name := some "M", others := [] }),
   ("D", { family := "DRIFT", L := some 4, name := some "D", others := [] })]

/-- A state with a null-length row and no explicit positions. -/
def exNullState : BState :=
  { lattice := ["M", "D"], definitions := exNullDefs, table := none,
    positions := none, history := [] }

/-- A state with a null-length row and explicit positions supplied. -/
def exNullPosState : BState :=
  { lattice := ["M", "D"], definitions := exNullDefs, table := none,
    positions := some [10, 20], history := [] }

/-- A definition store whose only entry lacks the `L` key. -/
def exAllNullDefs : Dict AttrSet :=
  [("M", { family := "MARKER", L := none, name := some "M", others := [] })]

/-- A state in which every referenced definition lacks a length: the built
frame has no `L` column. -/
def exAllNullState : BState :=
  { lattice := ["M"], definitions := exAllNullDefs, table := none,
    positions := none, history := [] }

/-- The same all-missing-length state with explicit positions supplied. -/
def exAllNullPosState : BState :=
  { lattice := ["M"], definitions := exAllNullDefs, table := none,
    positions := some [5], history := [] }

/-- An attribute set with no `L` key. -/
def exAttrNoL : AttrSet :=
  { family := "KQUAD", L := none, name := none, others := [] }

/-- A definition batch whose first (and only) entry lacks `L`. -/
def exBatchNoL : Dict AttrSet := [("Q2", exAttrNoL)]

/-- Attributes with the elegant-style family tag `KQUAD`. -/
def exAttrQF : AttrSet :=
  { family := "KQUAD", L := some 1, name := none, others := [] }

/-- Attributes with a family tag the conversion table does not know. -/
def exAttrZ : AttrSet :=
  { family := "WIGGLER99", L := some 2, name := none, others := [] }

/-- A definition batch with a convertible family and an unrecognized one. -/
def exBatchFam : Dict AttrSet := [("QF", exAttrQF), ("Z", exAttrZ)]

/-- A parse result `parse_from_string` could return: lattice name, one
drift definition, a one-slot lattice. -/
def exParse : ParseOut :=
  (some "RING",
   [("D", { family := "DRIFT", L := some 1, name := some "D", others := [] })],
   ["D"])

/-! ### Association-list lemmas -/

theorem Dict.get?_eq_none_iff {α : Type} (d : Dict α) (k : String) :
    Dict.get? d k = none ↔ k ∉ d.map Prod.fst := by
  induction d with
  | nil => simp [Dict.get?]
  | cons p rest ih =>
    obtain ⟨k', v⟩ := p
    by_cases h : k' = k
    · subst h
      simp [Dict.get?]
    · simp [Dict.get?, h, ih, Ne.symm h]

theorem Dict.isSome_get?_iff {α : Type} (d : Dict α) (k : String) :
    (Dict.get? d k).isSome = true ↔ k ∈ d.map Prod.fst := by
  constructor
  · intro h
    by_contra hk
    rw [(Dict.get?_eq_none_iff d k).mpr hk] at h
    simp at h
  · intro hk
    cases hs : Dict.get? d k with
    | none => exact absurd hk ((Dict.get?_eq_none_iff d k).mp hs)
    | some v => rfl

theorem Dict.get?_mapEntry {α : Type} (d : Dict α) (g : String → α → α) (k : String) :
    Dict.get? (d.map (fun p => (p.1, g p.1 p.2))) k = (Dict.get? d k).map (g k) := by
  induction d with
  | nil => simp [Dict.get?]
  | cons p rest ih =>
    obtain ⟨k', v⟩ := p
    by_cases h : k' = k
    · subst h
      simp [Dict.get?]
    · simp [Dict.get?, h, ih]

theorem Dict.get?_mapVal {α : Type} (f : α → α) (d : Dict α) (k : String) :
    Dict.get? (Dict.mapVal f d) k = (Dict.get? d k).map f :=
  Dict.get?_mapEntry d (fun _ a => f a) k

theorem Dict.get?_insert_self {α : Type} (d : Dict α) (k : String) (v : α) :
    Dict.get? (Dict.insert d k v) k = some v := by
  induction d with
  | nil => simp [Dict.insert, Dict.get?]
  | cons p rest ih =>
    obtain ⟨k', v'⟩ := p
    by_cases h : k' = k
    · simp [Dict.insert, Dict.get?, h]
    · simp [Dict.insert, Dict.get?, h, ih]

theorem Dict.get?_insert_ne {α : Type} (d : Dict α) (k' k : String) (v : α)
    (h : k' ≠ k) : Dict.get? (Dict.insert d k' v) k = Dict.get? d k := by
  induction d with
  | nil => simp [Dict.insert, Dict.get?, h]
  | cons p rest ih =>
    obtain ⟨k0, v0⟩ := p
    by_cases h0 : k0 = k'
    · subst h0
      simp [Dict.insert, Dict.get?, h]
    · simp only [Dict.insert, if_neg h0]
      by_cases hk : k0 = k
      · simp [Dict.get?, hk]
      · simp [Dict.get?, hk, ih]

theorem Dict.get?_merge_not_mem {α : Type} (old new : Dict α) (k : String)
    (h : k ∉ new.map Prod.fst) :
    Dict.get? (Dict.merge old new) k = Dict.get? old k := by
  induction new generalizing old with
  | nil => rfl
  | cons p rest ih =>
    obtain ⟨k0, v0⟩ := p
    simp only [List.map_cons, List.mem_cons] at h
    push_neg at h
    show Dict.get? (Dict.merge (Dict.insert old k0 v0) rest) k = _
    rw [ih (Dict.insert old k0 v0) h.2,
        Dict.get?_insert_ne old k0 k v0 (fun hh => h.1 hh.symm)]

theorem Dict.get?_merge_mem {α : Type} (old new : Dict α) (k : String) (a : α)
    (hnd : (new.map Prod.fst).Nodup) (h : Dict.get? new k = some a) :
    Dict.get? (Dict.merge old new) k = some a := by
  induction new generalizing old with
  | nil => simp [Dict.get?] at h
  | cons p rest ih =>
    obtain ⟨k0, v0⟩ := p
    simp only [List.map_cons, List.nodup_cons] at hnd
    show Dict.get? (Dict.merge (Dict.insert old k0 v0) rest) k = some a
    by_cases hk : k0 = k
    · subst hk
      rw [Dict.get?_merge_not_mem _ _ _ hnd.1, Dict.get?_insert_self]
      simpa [Dict.get?] using h
    · simp only [Dict.get?, if_neg hk] at h
      exact ih (Dict.insert old k0 v0) hnd.2 h

/-! ### `pyIndex` lemmas -/

theorem pyIndex_eq_none_iff (old : String) (l : List String) :
    pyIndex old l = none ↔ old ∉ l := by
  induction l with
  | nil => simp [pyIndex]
  | cons x rest ih =>
    by_cases h : x = old
    · simp [pyIndex, h]
    · simp [pyIndex, h, ih, Ne.symm h]

theorem pyIndex_spec (old : String) (l : List String) (i : Nat)
    (h : pyIndex old l = some i) :
    i < l.length ∧ l.getD i "" = old ∧ ∀ j, j < i → l.getD j "" ≠ old := by
  induction l generalizing i with
  | nil => simp [pyIndex] at h
  | cons x rest ih =>
    by_cases hx : x = old
    · simp only [pyIndex, if_pos hx, Option.some.injEq] at h
      subst h
      exact ⟨by simp, by simpa using hx, by omega⟩
    · simp only [pyIndex, if_neg hx] at h
      cases hr : pyIndex old rest with
      | none => simp [hr] at h
      | some j =>
        rw [hr] at h
        simp at h
        subst h
        obtain ⟨h1, h2, h3⟩ := ih j hr
        refine ⟨by simpa using h1, by simpa using h2, ?_⟩
        intro m hm
        cases m with
        | zero => simpa using hx
        | succ m' => simpa using h3 m' (by omega)

/-! ### Cumulative-sum lemmas -/

theorem atsFrom_length (acc : Rat) (ls : List Rat) :
    (atsFrom acc ls).length = ls.length := by
  induction ls generalizing acc with
  | nil => rfl
  | cons l rest ih => simp [atsFrom, ih]

theorem atsOptFrom_length (acc : Rat) (ls : List (Option Rat)) :
    (atsOptFrom acc ls).length = ls.length := by
  induction ls generalizing acc with
  | nil => rfl
  | cons l rest ih =>
    cases l <;> simp [atsOptFrom, ih]

theorem atsOptFrom_map_some (acc : Rat) (ls : List Rat) :
    atsOptFrom acc (ls.map some) = (atsFrom acc ls).map some := by
  induction ls generalizing acc with
  | nil => rfl
  | cons l rest ih => simp [atsOptFrom, atsFrom, ih]

theorem atsFrom_getD (ls : List Rat) (acc : Rat) (i : Nat) (h : i < ls.length) :
    (atsFrom acc ls).getD i 0 = acc + (ls.take (i + 1)).sum - ls.getD i 0 / 2 := by
  induction ls generalizing acc i with
  | nil => simp at h
  | cons l rest ih =>
    cases i with
    | zero => simp [atsFrom]
    | succ j =>
      have hj : j < rest.length := by simpa using h
      simp only [atsFrom, List.getD_cons_succ, List.take_succ_cons, List.sum_cons]
      rw [ih (acc + l) j hj]
      ring

/-! ### Option-list helpers -/

theorem map_getD_eq_self (os : List (Option Rat))
    (h : ∀ o ∈ os, o.isSome = true) :
    (os.map (fun o => o.getD 0)).map some = os := by
  induction os with
  | nil => rfl
  | cons o rest ih =>
    have ho := h o (by simp)
    cases o with
    | none => simp at ho
    | some v => simp [ih (fun o hm => h o (by simp [hm]))]

theorem getD_map_some (xs : List Rat) (i : Nat) (h : i < xs.length) :
    (xs.map some).getD i none = some (xs.getD i 0) := by
  induction xs generalizing i with
  | nil => simp at h
  | cons x rest ih =>
    cases i with
    | zero => rfl
    | succ j => simpa using ih j (by simpa using h)

theorem getD_map_getD (os : List (Option Rat)) (i : Nat) (h : i < os.length) :
    (os.map (fun o => o.getD 0)).getD i 0 = (os.getD i none).getD 0 := by
  induction os generalizing i with
  | nil => simp at h
  | cons o rest ih =>
    cases i with
    | zero => rfl
    | succ j => simpa using ih j (by simpa using h)

/-! ### `mkRows` lemmas -/

theorem mkRows_length (temp : List PreRow) (ls avs : List (Option Rat))
    (h1 : temp.length = ls.length) (h2 : ls.length = avs.length) :
    (mkRows temp ls avs).length = temp.length := by
  simp only [mkRows, List.length_map, List.length_zip, h1, h2]
  omega

theorem mkRows_map_atv (temp : List PreRow) (ls avs : List (Option Rat))
    (h1 : temp.length = ls.length) (h2 : ls.length = avs.length) :
    (mkRows temp ls avs).map Row.atv = avs := by
  induction temp generalizing ls avs with
  | nil =>
    have : ls = [] := List.length_eq_zero.mp h1.symm
    subst this
    have : avs = [] := List.length_eq_zero.mp h2.symm
    subst this
    rfl
  | cons p temp' ih =>
    cases ls with
    | nil => simp at h1
    | cons l ls' =>
      cases avs with
      | nil => simp at h2
      | cons a avs' =>
        have ihh := ih ls' avs' (by simpa using h1) (by simpa using h2)
        simp only [mkRows] at ihh
        simp [mkRows, ihh]

theorem mkRows_map_L (temp : List PreRow) (ls avs : List (Option Rat))
    (h1 : temp.length = ls.length) (h2 : ls.length = avs.length) :
    (mkRows temp ls avs).map Row.L = ls := by
  induction temp generalizing ls avs with
  | nil =>
    have : ls = [] := List.length_eq_zero.mp h1.symm
    subst this
    rfl
  | cons p temp' ih =>
    cases ls with
    | nil => simp at h1
    | cons l ls' =>
      cases avs with
      | nil => simp at h2
      | cons a avs' =>
        have ihh := ih ls' avs' (by simpa using h1) (by simpa using h2)
        simp only [mkRows] at ihh
        simp [mkRows, ihh]

/-! ### `update_table` structure lemmas -/

theorem rawL_eq (s : BState) :
    rawL s = s.lattice.map (fun k => ((Dict.get? s.definitions k).getD default).L) := by
  simp [rawL, tempRows]

theorem update_table_history (s : BState) :
    (update_table s).1.history = s.history := by
  rw [update_table]
  split
  · split <;> rfl
  · rfl

theorem update_table_definitions (s : BState) :
    (update_table s).1.definitions = s.definitions := by
  rw [update_table]
  split
  · split <;> rfl
  · rfl

theorem update_table_lattice (s : BState) :
    (update_table s).1.lattice = s.lattice := by
  rw [update_table]
  split
  · split <;> rfl
  · rfl

theorem update_table_positions (s : BState) :
    (update_table s).1.positions = s.positions := by
  rw [update_table]
  split
  · split <;> rfl
  · rfl

theorem update_table_table_of_built (s : BState)
    (h : s.lattice.all (fun k => (Dict.get? s.definitions k).isSome) = true)
    (hSome : (rawL s).all Option.isNone = false) :
    (update_table s).1.table = some (mkRows (tempRows s) (finalL s) (finalAt s)) := by
  rw [update_table, if_pos h, if_neg (by simp [hSome])]

theorem update_table_err_of_built (s : BState)
    (h : s.lattice.all (fun k => (Dict.get? s.definitions k).isSome) = true)
    (hSome : (rawL s).all Option.isNone = false) :
    (update_table s).2.2 = none := by
  rw [update_table, if_pos h, if_neg (by simp [hSome])]

/-- When no row carries a length, the rebuild raises `KeyError` and the
table keeps its previous value. -/
theorem update_table_err_of_no_L (s : BState)
    (h : s.lattice.all (fun k => (Dict.get? s.definitions k).isSome) = true)
    (hNone : (rawL s).all Option.isNone = true) :
    (update_table s).1 = s ∧ (update_table s).2.2 = some PyErr.keyError := by
  rw [update_table, if_pos h, if_pos hNone]
  exact ⟨rfl, rfl⟩

theorem tempRows_length (s : BState) : (tempRows s).length = s.lattice.length := by
  simp [tempRows]

theorem rawL_length (s : BState) : (rawL s).length = s.lattice.length := by
  simp [rawL, tempRows]

theorem defLens_length (s : BState) : (defLens s).length = s.lattice.length := by
  simp [defLens, rawL_length]

/-- With no null `L`, the final columns are the raw `L` column and the
cumulative-sum `at` column (or the explicit positions). -/
theorem finalL_of_no_null (s : BState) (h : hasNullL s = false) :
    finalL s = rawL s := by
  rw [finalL, h]
  simp

theorem finalAt_of_no_null (s : BState) (h : hasNullL s = false) :
    finalAt s = atInit s := by
  rw [finalAt, h]
  simp

theorem finalL_of_null (s : BState) (h : hasNullL s = true) :
    finalL s = (defLens s).map some := by
  rw [finalL, h, defLens]
  simp

theorem finalAt_of_null (s : BState) (h : hasNullL s = true) :
    finalAt s = (ats (defLens s)).map some := by
  rw [finalAt, h, defLens]
  simp

theorem atInit_of_no_positions (s : BState) (h : s.positions = none) :
    atInit s = atsOpt (rawL s) := by
  rw [atInit, h]

/-- Every referenced definition carrying a length makes the raw `L` column
all-present. -/
theorem hasNullL_false_of_all_some (s : BState)
    (hL : ∀ k ∈ s.lattice, (((Dict.get? s.definitions k).getD default).L).isSome = true) :
    hasNullL s = false := by
  rw [hasNullL, rawL_eq]
  simp only [List.any_eq_false]
  intro o ho
  obtain ⟨k, hk, rfl⟩ := List.mem_map.mp ho
  have := hL k hk
  simp only [Option.isNone_iff_eq_none]
  intro hnone
  rw [hnone] at this
  simp at this

theorem hasNullL_true_of_some_none (s : BState)
    (h : ∃ k ∈ s.lattice, ((Dict.get? s.definitions k).getD default).L = none) :
    hasNullL s = true := by
  rw [hasNullL, rawL_eq]
  obtain ⟨k, hk, hnone⟩ := h
  simp only [List.any_eq_true]
  exact ⟨_, List.mem_map_of_mem _ hk, by simp [hnone]⟩

/-- One referenced definition with a present length gives the frame an `L`
column: the all-null guard is false. -/
theorem rawL_not_all_none (s : BState)
    (h : ∃ k ∈ s.lattice, (((Dict.get? s.definitions k).getD default).L).isSome = true) :
    (rawL s).all Option.isNone = false := by
  obtain ⟨k, hk, hs⟩ := h
  cases hall : (rawL s).all Option.isNone with
  | false => rfl
  | true =>
    exfalso
    have hmem : (((Dict.get? s.definitions k).getD default).L) ∈ rawL s := by
      rw [rawL_eq]
      exact List.mem_map_of_mem _ hk
    have hnone := List.all_eq_true.mp hall _ hmem
    cases hc : ((Dict.get? s.definitions k).getD default).L with
    | none => rw [hc] at hs; simp at hs
    | some v => rw [hc] at hnone; simp at hnone

theorem rawL_all_some (s : BState)
    (hL : ∀ k ∈ s.lattice, (((Dict.get? s.definitions k).getD default).L).isSome = true) :
    ∀ o ∈ rawL s, o.isSome = true := by
  rw [rawL_eq]
  intro o ho
  obtain ⟨k, hk, rfl⟩ := List.mem_map.mp ho
  exact hL k hk

/-! ### History discipline of the mutating operations -/

/-- Every supported mutating operation pushes exactly one snapshot — of
the pre-operation `(definitions, lattice, table)` — and touches the
history nowhere else, also when the call raises. -/
theorem apply_history (s : BState) (op : Op) :
    (Op.apply s op).history = (s.definitions, s.lattice, s.table) :: s.history := by
  cases op with
  | addDef batch =>
    simp only [Op.apply, add_def]
    cases batch.head? with
    | none => rfl
    | some p =>
      obtain ⟨k0, a0⟩ := p
      by_cases hL : a0.L.isNone
      · simp [hL, snapshot]
      · simp only [hL, Bool.false_eq_true, if_false]
        split
        · simp [update_table_history, snapshot]
        · simp [snapshot]
  | addElement e =>
    simp [Op.apply, add_element, update_table_history, snapshot]
  | replaceElement old new idx =>
    simp only [Op.apply, replace_element]
    cases idx with
    | some i => simp [update_table_history, snapshot]
    | none =>
      cases pyIndex old (snapshot s).lattice with
      | none => simp [snapshot]
      | some i => simp [update_table_history, snapshot]
  | replaceList i j new =>
    simp [Op.apply, replace_list, update_table_history, snapshot]
  | insertBefore e i =>
    simp [Op.apply, insert_element_before, update_table_history, snapshot]
  | insertAfter e i =>
    simp [Op.apply, insert_element_after, update_table_history, snapshot]
  | removeElement i =>
    simp [Op.apply, remove_element, update_table_history, snapshot]
  | removeFromTo i j =>
    simp [Op.apply, remove_from_to, update_table_history, snapshot]
  | buildTable =>
    simp [Op.apply, build_table, update_table_history, snapshot]
  | loadFromFile ftype parsed =>
    simp only [Op.apply, load_from_file]
    split
    · cases parsed <;> simp [snapshot]
    · simp [snapshot]

/-- Undoing a state whose history head is a known snapshot restores the
snapshot's triple and pops it. -/
theorem undo_of_history (s : BState) (d : Dict AttrSet) (l : List String)
    (t : Option (List Row)) (rest : List (Dict AttrSet × List String × Option (List Row)))
    (h : s.history = (d, l, t) :: rest) :
    (undo s).definitions = d ∧ (undo s).lattice = l ∧ (undo s).table = t ∧
      (undo s).history = rest := by
  rw [undo]
  simp [h]

/-- After applying a sequence of operations, iterating `undo` as many
times restores `(definitions, lattice, table)` and the history stack. -/
theorem undo_iterate_applyOps (ops : List Op) (s : BState) :
    (undo^[ops.length] (applyOps s ops)).definitions = s.definitions ∧
    (undo^[ops.length] (applyOps s ops)).lattice = s.lattice ∧
    (undo^[ops.length] (applyOps s ops)).table = s.table ∧
    (undo^[ops.length] (applyOps s ops)).history = s.history := by
  induction ops generalizing s with
  | nil => exact ⟨rfl, rfl, rfl, rfl⟩
  | cons op rest ih =>
    have hfold : applyOps s (op :: rest) = applyOps (Op.apply s op) rest := rfl
    have hlen : (op :: rest).length = rest.length + 1 := rfl
    rw [hfold, hlen, Function.iterate_succ_apply']
    obtain ⟨_, _, _, hh⟩ := ih (Op.apply s op)
    have hhist : (undo^[rest.length] (applyOps (Op.apply s op) rest)).history =
        (s.definitions, s.lattice, s.table) :: s.history := by
      rw [hh, apply_history]
    exact undo_of_history _ s.definitions s.lattice s.table s.history hhist

/-- Claim C3: for every builder state and every sequence of N supported mutating
operations (`add_def`, `add_element`, `replace_element`, `replace_list`,
`insert_element_before`, `insert_element_after`, `remove_element`,
`remove_from_to`, `build_table`, `load_from_file`), performing the N
operations and then calling `undo` N times restores the builder's
`(definitions, lattice, table)` to exactly their values before the first
operation. -/
theorem undo_restores_state (ops : List Op) (s : BState) :
    (undo^[ops.length] (applyOps s ops)).definitions = s.definitions ∧
    (undo^[ops.length] (applyOps s ops)).lattice = s.lattice ∧
    (undo^[ops.length] (applyOps s ops)).table = s.table := by
  obtain ⟨h1, h2, h3, _⟩ := undo_iterate_applyOps ops s
  exact ⟨h1, h2, h3⟩

/-! ### Claim theorems about the table rebuild -/

/-- Claim C1 (counterexample): at the empty lattice — reachable via
`build_table` on a fresh builder or `remove_element` on a singleton — the
claim's hypotheses hold vacuously, yet `_update_table` does not build a
table: the empty frame has no `L` column, so core.py line 282 raises
`KeyError` and the table keeps its previous value. -/
theorem update_table_centroid_claim_false :
    (initState.lattice.all (fun k => (Dict.get? initState.definitions k).isSome) = true) ∧
    (∀ k ∈ initState.lattice,
      (((Dict.get? initState.definitions k).getD default).L).isSome = true) ∧
    initState.positions = none ∧
    (update_table initState).2.2 = some PyErr.keyError ∧
    (update_table initState).1.table = none := by
  decide

/-- Claim C1 (amended): when the lattice is NON-EMPTY, every lattice
reference exists in the definition store, no explicit positions are
supplied, and every referenced definition has a non-null length,
`_update_table` computes the `at` value of the i-th row as the sum of the
lengths of rows 1..i minus half the i-th row's length.  (At the empty
lattice the rebuild raises `KeyError` instead — no `L` column.) -/
theorem update_table_centroid (s : BState)
    (hNe : s.lattice ≠ [])
    (hAll : s.lattice.all (fun k => (Dict.get? s.definitions k).isSome) = true)
    (hL : ∀ k ∈ s.lattice, (((Dict.get? s.definitions k).getD default).L).isSome = true)
    (hPos : s.positions = none) :
    ∃ rows, (update_table s).1.table = some rows ∧
      rows.length = s.lattice.length ∧
      ∀ i, i < s.lattice.length →
        (rows.map Row.atv).getD i none =
          some (((defLens s).take (i + 1)).sum - (defLens s).getD i 0 / 2) := by
  have hSome : (rawL s).all Option.isNone = false := by
    refine rawL_not_all_none s ?_
    cases hlat : s.lattice with
    | nil => exact absurd hlat hNe
    | cons k rest => exact ⟨k, by simp [hlat], hL k (by simp [hlat])⟩
  have hnull : hasNullL s = false := hasNullL_false_of_all_some s hL
  have hfl : finalL s = rawL s := finalL_of_no_null s hnull
  have hsome : (defLens s).map some = rawL s := by
    rw [defLens]
    exact map_getD_eq_self (rawL s) (rawL_all_some s hL)
  have hfa : finalAt s = (ats (defLens s)).map some := by
    rw [finalAt_of_no_null s hnull, atInit_of_no_positions s hPos, ← hsome]
    exact atsOptFrom_map_some 0 (defLens s)
  have h1 : (tempRows s).length = (finalL s).length := by
    rw [hfl, tempRows_length, rawL_length]
  have h2 : (finalL s).length = (finalAt s).length := by
    rw [hfl, hfa, rawL_length, List.length_map, ats, atsFrom_length, defLens_length]
  refine ⟨mkRows (tempRows s) (finalL s) (finalAt s),
    update_table_table_of_built s hAll hSome, ?_, ?_⟩
  · rw [mkRows_length _ _ _ h1 h2, tempRows_length]
  · intro i hi
    rw [mkRows_map_atv _ _ _ h1 h2, hfa]
    have hl1 : i < (ats (defLens s)).length := by
      rw [ats, atsFrom_length, defLens_length]
      exact hi
    have hl2 : i < (defLens s).length := by
      rw [defLens_length]
      exact hi
    rw [getD_map_some _ i hl1, ats, atsFrom_getD (defLens s) 0 i hl2, zero_add]

/-- Claim C2: when the lattice references a name absent from the definition
store, `_update_table` leaves the whole state — in particular the table —
unchanged, raises nothing, and the reported set of undefined names is
exactly the set of names occurring in the lattice minus the set of
definition-store keys. -/
theorem update_table_undefined_gating (s : BState)
    (h : ∃ k ∈ s.lattice, Dict.get? s.definitions k = none) :
    (update_table s).1 = s ∧ (update_table s).2.2 = none ∧
      ∃ m, (update_table s).2.1 = some m ∧
        ∀ x, x ∈ m ↔ (x ∈ s.lattice ∧ Dict.get? s.definitions x = none) := by
  have hcond : ¬(s.lattice.all (fun k => (Dict.get? s.definitions k).isSome) = true) := by
    obtain ⟨k, hk, hnone⟩ := h
    simp only [List.all_eq_true, not_forall]
    exact ⟨k, by simp [hk, hnone]⟩
  refine ⟨by rw [update_table, if_neg hcond], by rw [update_table, if_neg hcond], ?_⟩
  refine ⟨_, by rw [update_table, if_neg hcond], ?_⟩
  intro x
  rw [Finset.mem_sdiff, List.mem_toFinset, List.mem_toFinset]
  constructor
  · rintro ⟨h1, h2⟩
    exact ⟨h1, (Dict.get?_eq_none_iff _ _).mpr h2⟩
  · rintro ⟨h1, h2⟩
    exact ⟨h1, (Dict.get?_eq_none_iff _ _).mp h2⟩

/-- Claim C9 (counterexample): a rebuild in which EVERY row's length is
missing — reachable, since `add_def` checks `L` only on the first batch
entry — does raise: `pd.DataFrame(temp)` has no `L` column, so
`ntable["L"]` at core.py line 282 raises `KeyError` and no coerced table
is produced. -/
theorem update_table_null_coercion_claim_false :
    (exAllNullState.lattice.all
      (fun k => (Dict.get? exAllNullState.definitions k).isSome) = true) ∧
    (∃ k ∈ exAllNullState.lattice,
      ((Dict.get? exAllNullState.definitions k).getD default).L = none) ∧
    exAllNullState.positions = none ∧
    (update_table exAllNullState).2.2 = some PyErr.keyError ∧
    (update_table exAllNullState).1.table = none := by
  decide

/-- Claim C9 (amended): when every lattice reference is defined, no explicit
positions are supplied, some row's length is null AND at least one row's
length is present (so the frame has an `L` column), the rebuild coerces
the null lengths to `0.0`, redoes the cumulative `at` computation over the
corrected lengths (the missing length contributing `0` to its own `at` and
to all later sums), and raises nothing.  (When every row's length is
missing, the rebuild raises `KeyError` instead.) -/
theorem update_table_null_coercion (s : BState)
    (hAll : s.lattice.all (fun k => (Dict.get? s.definitions k).isSome) = true)
    (hNull : ∃ k ∈ s.lattice, ((Dict.get? s.definitions k).getD default).L = none)
    (hSomeL : ∃ k ∈ s.lattice, (((Dict.get? s.definitions k).getD default).L).isSome = true)
    (hPos : s.positions = none) :
    (update_table s).2.2 = none ∧
    ∃ rows, (update_table s).1.table = some rows ∧
      rows.length = s.lattice.length ∧
      rows.map Row.L = (defLens s).map some ∧
      (∀ i, i < s.lattice.length →
        (rows.map Row.atv).getD i none =
          some (((defLens s).take (i + 1)).sum - (defLens s).getD i 0 / 2)) ∧
      ∀ i, i < s.lattice.length →
        (rawL s).getD i none = none → (defLens s).getD i 0 = 0 := by
  have hSome : (rawL s).all Option.isNone = false := rawL_not_all_none s hSomeL
  have hnull : hasNullL s = true := hasNullL_true_of_some_none s hNull
  have hfl : finalL s = (defLens s).map some := finalL_of_null s hnull
  have hfa : finalAt s = (ats (defLens s)).map some := finalAt_of_null s hnull
  have h1 : (tempRows s).length = (finalL s).length := by
    rw [hfl, tempRows_length, List.length_map, defLens_length]
  have h2 : (finalL s).length = (finalAt s).length := by
    rw [hfl, hfa, List.length_map, List.length_map, ats, atsFrom_length]
  refine ⟨update_table_err_of_built s hAll hSome,
    mkRows (tempRows s) (finalL s) (finalAt s),
    update_table_table_of_built s hAll hSome, ?_, ?_, ?_, ?_⟩
  · rw [mkRows_length _ _ _ h1 h2, tempRows_length]
  · rw [mkRows_map_L _ _ _ h1 h2, hfl]
  · intro i hi
    rw [mkRows_map_atv _ _ _ h1 h2, hfa]
    have hl1 : i < (ats (defLens s)).length := by
      rw [ats, atsFrom_length, defLens_length]
      exact hi
    have hl2 : i < (defLens s).length := by
      rw [defLens_length]
      exact hi
    rw [getD_map_some _ i hl1, ats, atsFrom_getD (defLens s) 0 i hl2, zero_add]
  · intro i hi hnone
    have hl : i < (rawL s).length := by
      rw [rawL_length]
      exact hi
    rw [defLens, getD_map_getD (rawL s) i hl, hnone]
    rfl

/-- Claim C10 (counterexample): with explicit positions supplied and EVERY
row's length missing, no resulting table exists: after the positions
assignment, `ntable["L"].isnull()` at core.py line 284 raises `KeyError`
and the table keeps its previous value — so the `at` column of "the
resulting table" is neither the coerced cumulative sum nor the
positions. -/
theorem update_table_positions_discarded_claim_false :
    (exAllNullPosState.lattice.all
      (fun k => (Dict.get? exAllNullPosState.definitions k).isSome) = true) ∧
    (∃ k ∈ exAllNullPosState.lattice,
      ((Dict.get? exAllNullPosState.definitions k).getD default).L = none) ∧
    exAllNullPosState.positions = some [5] ∧
    (update_table exAllNullPosState).2.2 = some PyErr.keyError ∧
    (update_table exAllNullPosState).1.table = none := by
  decide

/-- Claim C10 (implicit, amended): when explicit positions were supplied, at
least one row's length is null and at least one row's length is present
(so the frame has an `L` column), the `at` column of the resulting table
is the cumulative-sum computation over the coerced lengths — the supplied
explicit positions are silently discarded.  (When every row's length is
missing, the rebuild raises `KeyError` and no table results.) -/
theorem update_table_positions_discarded (s : BState) (pos : List Rat)
    (hAll : s.lattice.all (fun k => (Dict.get? s.definitions k).isSome) = true)
    (hNull : ∃ k ∈ s.lattice, ((Dict.get? s.definitions k).getD default).L = none)
    (hSomeL : ∃ k ∈ s.lattice, (((Dict.get? s.definitions k).getD default).L).isSome = true)
    (hPos : s.positions = some pos) :
    ∃ rows, (update_table s).1.table = some rows ∧
      rows.map Row.L = (defLens s).map some ∧
      rows.map Row.atv = (ats (defLens s)).map some := by
  have hSome : (rawL s).all Option.isNone = false := rawL_not_all_none s hSomeL
  have hnull : hasNullL s = true := hasNullL_true_of_some_none s hNull
  have hfl : finalL s = (defLens s).map some := finalL_of_null s hnull
  have hfa : finalAt s = (ats (defLens s)).map some := finalAt_of_null s hnull
  have h1 : (tempRows s).length = (finalL s).length := by
    rw [hfl, tempRows_length, List.length_map, defLens_length]
  have h2 : (finalL s).length = (finalAt s).length := by
    rw [hfl, hfa, List.length_map, List.length_map, ats, atsFrom_length]
  refine ⟨mkRows (tempRows s) (finalL s) (finalAt s),
    update_table_table_of_built s hAll hSome, ?_, ?_⟩
  · rw [mkRows_map_L _ _ _ h1 h2, hfl]
  · rw [mkRows_map_atv _ _ _ h1 h2, hfa]

/-! ### Claim theorems about `add_def`, `replace_element` and
`load_from_file` -/

/-- Updating every entry through a key-preserving function keeps the key
list. -/
theorem Dict.keys_mapEntry {α : Type} (d : Dict α) (g : String → α → α) :
    (d.map (fun p => (p.1, g p.1 p.2))).map Prod.fst = d.map Prod.fst := by
  induction d with
  | nil => rfl
  | cons p rest ih => simp [ih]

/-- Claim C4 (counterexample): calling `add_def` with a batch whose first entry
lacks `L` raises, but does NOT leave the history stack unchanged — the
snapshot is pushed before the assertion runs. -/
theorem add_def_missing_length_claim_false :
    (add_def initState exBatchNoL).err.isSome = true ∧
    (add_def initState exBatchNoL).state.history ≠ initState.history := by
  decide

/-- Claim C4 (amended): when the first entry of the batch lacks `L`, `add_def`
raises `AssertionError` synchronously and leaves `definitions`, `lattice`
and `table` (and `positions`) unchanged, but the history stack has already
received one snapshot of the pre-call state. -/
theorem add_def_missing_length (s : BState) (batch : Dict AttrSet)
    (k0 : String) (a0 : AttrSet) (hhead : batch.head? = some (k0, a0))
    (hL : a0.L = none) :
    (add_def s batch).err = some PyErr.assertionError ∧
    (add_def s batch).state.definitions = s.definitions ∧
    (add_def s batch).state.lattice = s.lattice ∧
    (add_def s batch).state.table = s.table ∧
    (add_def s batch).state.positions = s.positions ∧
    (add_def s batch).state.history =
      (s.definitions, s.lattice, s.table) :: s.history := by
  simp only [add_def, hhead]
  simp [hL, snapshot]

theorem add_def_missing_length_witness :
    exBatchNoL.head? = some ("Q2", exAttrNoL) ∧ exAttrNoL.L = none ∧
    ((add_def initState exBatchNoL).err = some PyErr.assertionError ∧
     (add_def initState exBatchNoL).state.definitions = initState.definitions ∧
     (add_def initState exBatchNoL).state.lattice = initState.lattice ∧
     (add_def initState exBatchNoL).state.table = initState.table ∧
     (add_def initState exBatchNoL).state.positions = initState.positions ∧
     (add_def initState exBatchNoL).state.history =
       (initState.definitions, initState.lattice, initState.table) :: initState.history) :=
  ⟨rfl, rfl, add_def_missing_length initState exBatchNoL "Q2" exAttrNoL rfl rfl⟩

/-- Claim C6: after an `add_def` call that passes its length validation,
every definition the batch supplied is stored with its family passed
through the conversion table: `KQUAD` becomes `QUADRUPOLE`, a family that
is not a key of the table is stored unchanged.  The definitions are merged
and normalized before the rebuild attempt, so this holds whether or not a
triggered rebuild raises. -/
theorem add_def_normalizes_family (s : BState) (batch : Dict AttrSet)
    (k0 : String) (a0 : AttrSet) (hhead : batch.head? = some (k0, a0))
    (hL : a0.L.isSome = true)
    (hnd : (batch.map Prod.fst).Nodup)
    (k : String) (attrs : AttrSet) (hk : Dict.get? batch k = some attrs) :
    ∃ a, Dict.get? (add_def s batch).state.definitions k = some a ∧
      a.family = convFamily attrs.family ∧
      (attrs.family = "KQUAD" → a.family = "QUADRUPOLE") ∧
      (Dict.get? conversionDict attrs.family = none → a.family = attrs.family) := by
  have hno : a0.L.isNone = false := by
    cases hc : a0.L with
    | none => rw [hc] at hL; simp at hL
    | some v => simp
  have hBk : Dict.get? (batch.map (fun p => (p.1, nameFill p.1 p.2))) k =
      some (nameFill k attrs) := by
    rw [Dict.get?_mapEntry batch nameFill k, hk]
    rfl
  have hBnd : ((batch.map (fun p => (p.1, nameFill p.1 p.2))).map Prod.fst).Nodup := by
    rw [Dict.keys_mapEntry batch nameFill]
    exact hnd
  have hmerge := Dict.get?_merge_mem (snapshot s).definitions _ k _ hBnd hBk
  have hval := Dict.get?_mapVal famNorm
    (Dict.merge (snapshot s).definitions
      (batch.map (fun p => (p.1, nameFill p.1 p.2)))) k
  simp only [add_def, hhead, hno, Bool.false_eq_true, if_false]
  have hfam : ∀ st : BState, st.definitions =
      Dict.mapVal famNorm
        (Dict.merge (snapshot s).definitions
          (batch.map (fun p => (p.1, nameFill p.1 p.2)))) →
      ∃ a, Dict.get? st.definitions k = some a ∧
        a.family = convFamily attrs.family ∧
        (attrs.family = "KQUAD" → a.family = "QUADRUPOLE") ∧
        (Dict.get? conversionDict attrs.family = none → a.family = attrs.family) := by
    intro st hst
    refine ⟨famNorm (nameFill k attrs), ?_, ?_, ?_, ?_⟩
    · rw [hst, hval, hmerge]
      rfl
    · simp [famNorm, nameFill]
    · intro hq
      simp [famNorm, nameFill, hq]
      decide
    · intro hnone
      simp [famNorm, nameFill, convFamily, hnone]
  split
  · exact hfam _ (update_table_definitions _)
  · exact hfam _ rfl

theorem add_def_normalizes_family_witness :
    (exBatchFam.head? = some ("QF", exAttrQF) ∧ exAttrQF.L.isSome = true ∧
     (exBatchFam.map Prod.fst).Nodup ∧ Dict.get? exBatchFam "QF" = some exAttrQF) ∧
    (∃ a, Dict.get? (add_def initState exBatchFam).state.definitions "QF" = some a ∧
       a.family = convFamily exAttrQF.family ∧
       (exAttrQF.family = "KQUAD" → a.family = "QUADRUPOLE") ∧
       (Dict.get? conversionDict exAttrQF.family = none → a.family = exAttrQF.family)) :=
  ⟨⟨rfl, rfl, by decide, by decide⟩,
   add_def_normalizes_family initState exBatchFam "QF" exAttrQF rfl rfl (by decide)
     "QF" exAttrQF (by decide)⟩

/-- Claim C7: `replace_element` without `idx` replaces the first slot whose
reference equals `old` (the splice survives the subsequent rebuild attempt
whether or not that rebuild raises); when `old` occurs nowhere in the
lattice the call fails (the `list.index` lookup raises, before the splice)
and the lattice is unchanged. -/
theorem replace_element_by_name (s : BState) (old : String) (new : Arg) :
    (old ∉ s.lattice →
      (replace_element s old new none).err = some PyErr.valueError ∧
      (replace_element s old new none).state.lattice = s.lattice ∧
      (replace_element s old new none).state.definitions = s.definitions ∧
      (replace_element s old new none).state.table = s.table) ∧
    (old ∈ s.lattice →
      ∃ i, pyIndex old s.lattice = some i ∧
        s.lattice.getD i "" = old ∧
        (∀ j, j < i → s.lattice.getD j "" ≠ old) ∧
        (replace_element s old new none).state.lattice =
          s.lattice.take i ++ new.toList ++ s.lattice.drop (i + 1)) := by
  constructor
  · intro hmem
    have hp : pyIndex old s.lattice = none := (pyIndex_eq_none_iff old s.lattice).mpr hmem
    simp [replace_element, snapshot, hp]
  · intro hmem
    cases hp : pyIndex old s.lattice with
    | none => exact absurd ((pyIndex_eq_none_iff old s.lattice).mp hp) (by simp [hmem])
    | some i =>
      obtain ⟨_, h2, h3⟩ := pyIndex_spec old s.lattice i hp
      refine ⟨i, rfl, h2, h3, ?_⟩
      simp [replace_element, snapshot, hp, update_table_lattice]

theorem replace_element_by_name_witness :
    ("Z" ∉ exState.lattice ∧
      (replace_element exState "Z" (Arg.one "Q") none).err = some PyErr.valueError ∧
      (replace_element exState "Z" (Arg.one "Q") none).state.lattice = exState.lattice) ∧
    ("D" ∈ exState.lattice ∧
      ∃ i, pyIndex "D" exState.lattice = some i ∧
        exState.lattice.getD i "" = "D" ∧
        (∀ j, j < i → exState.lattice.getD j "" ≠ "D") ∧
        (replace_element exState "D" (Arg.one "Q") none).state.lattice =
          exState.lattice.take i ++ (Arg.one "Q").toList ++ exState.lattice.drop (i + 1)) :=
  ⟨⟨by decide, ((replace_element_by_name exState "Z" (Arg.one "Q")).1 (by decide)).1,
    ((replace_element_by_name exState "Z" (Arg.one "Q")).1 (by decide)).2.1⟩,
   ⟨by decide, (replace_element_by_name exState "D" (Arg.one "Q")).2 (by decide)⟩⟩

/-- Claim C8 (counterexample): `load_from_file` with an invalid dialect tag
raises, but the history stack is NOT untouched — the snapshot is pushed
before the dialect assertion. -/
theorem load_bad_dialect_claim_false :
    (load_from_file initState "json" none).err.isSome = true ∧
    (load_from_file initState "json" none).state.history ≠ initState.history := by
  decide

/-- Claim C8 (amended): with a dialect tag other than `lte` and `madx`,
`load_from_file` raises `AssertionError` before any file I/O (the result
does not depend on the file's parse outcome) and before any effect on
`definitions`, `lattice`, `table` or `positions` — but a history snapshot
of the pre-call state has already been pushed. -/
theorem load_bad_dialect (s : BState) (ftype : String) (parsed : Option ParseOut)
    (h : ¬(ftype = "lte" ∨ ftype = "madx")) :
    (load_from_file s ftype parsed).err = some PyErr.assertionError ∧
    (load_from_file s ftype parsed).state.definitions = s.definitions ∧
    (load_from_file s ftype parsed).state.lattice = s.lattice ∧
    (load_from_file s ftype parsed).state.table = s.table ∧
    (load_from_file s ftype parsed).state.positions = s.positions ∧
    (load_from_file s ftype parsed).state.history =
      (s.definitions, s.lattice, s.table) :: s.history ∧
    ∀ parsed', load_from_file s ftype parsed' = load_from_file s ftype parsed := by
  simp [load_from_file, if_neg h, snapshot]

theorem load_bad_dialect_witness :
    ¬("json" = "lte" ∨ "json" = "madx") ∧
    ((load_from_file initState "json" none).err = some PyErr.assertionError ∧
     (load_from_file initState "json" none).state.history =
       (initState.definitions, initState.lattice, initState.table) :: initState.history) :=
  ⟨by decide,
   (load_bad_dialect initState "json" none (by decide)).1,
   (load_bad_dialect initState "json" none (by decide)).2.2.2.2.2.1⟩

/-- Claim C5 (code defect): with a valid dialect and a text the parsing
collaborator accepts, `load_from_file` never replaces the builder's state:
line 319 of `core.py` unpacks four values (`name, pos, defs, lat`) from
`parse_from_string`, which returns a 3-tuple, so a `ValueError` is raised
before any assignment — only the history snapshot has been pushed. -/
theorem load_from_file_unpack_mismatch (s : BState) (ftype : String) (p : ParseOut)
    (hf : ftype = "lte" ∨ ftype = "madx") :
    (load_from_file s ftype (some p)).err = some PyErr.valueError ∧
    (load_from_file s ftype (some p)).state.definitions = s.definitions ∧
    (load_from_file s ftype (some p)).state.lattice = s.lattice ∧
    (load_from_file s ftype (some p)).state.positions = s.positions ∧
    (load_from_file s ftype (some p)).state.table = s.table ∧
    (load_from_file s ftype (some p)).state.history =
      (s.definitions, s.lattice, s.table) :: s.history := by
  simp [load_from_file, if_pos hf, snapshot]

theorem load_from_file_unpack_mismatch_witness :
    ("lte" = "lte" ∨ "lte" = "madx") ∧
    ((load_from_file initState "lte" (some exParse)).err = some PyErr.valueError ∧
     (load_from_file initState "lte" (some exParse)).state.definitions =
       initState.definitions ∧
     (load_from_file initState "lte" (some exParse)).state.lattice =
       initState.lattice) :=
  ⟨Or.inl rfl,
   (load_from_file_unpack_mismatch initState "lte" exParse (Or.inl rfl)).1,
   (load_from_file_unpack_mismatch initState "lte" exParse (Or.inl rfl)).2.1,
   (load_from_file_unpack_mismatch initState "lte" exParse (Or.inl rfl)).2.2.1⟩

theorem update_table_centroid_witness :
    exState.lattice ≠ [] ∧
    (exState.lattice.all (fun k => (Dict.get? exState.definitions k).isSome) = true) ∧
    (∀ k ∈ exState.lattice,
      (((Dict.get? exState.definitions k).getD default).L).isSome = true) ∧
    exState.positions = none ∧
    ∃ rows, (update_table exState).1.table = some rows ∧
      rows.length = exState.lattice.length ∧
      ∀ i, i < exState.lattice.length →
        (rows.map Row.atv).getD i none =
          some (((defLens exState).take (i + 1)).sum - (defLens exState).getD i 0 / 2) :=
  ⟨by decide, by decide, by decide, rfl,
   update_table_centroid exState (by decide) (by decide) (by decide) rfl⟩

theorem update_table_undefined_gating_witness :
    (∃ k ∈ exUndefState.lattice, Dict.get? exUndefState.definitions k = none) ∧
    (update_table exUndefState).1 = exUndefState ∧
    (update_table exUndefState).2.2 = none ∧
    ∃ m, (update_table exUndefState).2.1 = some m ∧
      ∀ x, x ∈ m ↔
        (x ∈ exUndefState.lattice ∧ Dict.get? exUndefState.definitions x = none) :=
  ⟨by decide, (update_table_undefined_gating exUndefState (by decide)).1,
   (update_table_undefined_gating exUndefState (by decide)).2.1,
   (update_table_undefined_gating exUndefState (by decide)).2.2⟩

theorem update_table_null_coercion_witness :
    (exNullState.lattice.all (fun k => (Dict.get? exNullState.definitions k).isSome) = true) ∧
    (∃ k ∈ exNullState.lattice,
      ((Dict.get? exNullState.definitions k).getD default).L = none) ∧
    (∃ k ∈ exNullState.lattice,
      (((Dict.get? exNullState.definitions k).getD default).L).isSome = true) ∧
    exNullState.positions = none ∧
    ((update_table exNullState).2.2 = none ∧
     ∃ rows, (update_table exNullState).1.table = some rows ∧
      rows.length = exNullState.lattice.length ∧
      rows.map Row.L = (defLens exNullState).map some ∧
      (∀ i, i < exNullState.lattice.length →
        (rows.map Row.atv).getD i none =
          some (((defLens exNullState).take (i + 1)).sum -
            (defLens exNullState).getD i 0 / 2)) ∧
      ∀ i, i < exNullState.lattice.length →
        (rawL exNullState).getD i none = none → (defLens exNullState).getD i 0 = 0) :=
  ⟨by decide, by decide, by decide, rfl,
   update_table_null_coercion exNullState (by decide) (by decide) (by decide) rfl⟩

theorem update_table_positions_discarded_witness :
    (exNullPosState.lattice.all
      (fun k => (Dict.get? exNullPosState.definitions k).isSome) = true) ∧
    (∃ k ∈ exNullPosState.lattice,
      ((Dict.get? exNullPosState.definitions k).getD default).L = none) ∧
    (∃ k ∈ exNullPosState.lattice,
      (((Dict.get? exNullPosState.definitions k).getD default).L).isSome = true) ∧
    exNullPosState.positions = some [10, 20] ∧
    ∃ rows, (update_table exNullPosState).1.table = some rows ∧
      rows.map Row.L = (defLens exNullPosState).map some ∧
      rows.map Row.atv = (ats (defLens exNullPosState)).map some :=
  ⟨by decide, by decide, by decide, rfl,
   update_table_positions_discarded exNullPosState [10, 20] (by decide) (by decide)
     (by decide) rfl⟩

end LatticeConstructor
